import Mathlib

/-!
Shallow embedding of `src/06_C2PA_Dependencies/ED25519_uniffi_custom/src/lib.rs`,
a thin wrapper exposing Ed25519 key generation, signing and verification.

The wrapper delegates all elliptic-curve mathematics to the external
`ed25519_dalek` crate.  That crate is not part of this repository, so it is
modelled abstractly: a `DalekApi` structure holds the four primitive operations
the wrapper calls (`SigningKey::verifying_key`, `SigningKey::sign`,
`VerifyingKey::from_bytes`, `VerifyingKey::verify`), and `LawfulDalek` records
the documented facts about the crate that the wrapper relies on (output
lengths, RFC 8032 determinism and sign/verify round-trip).  Byte sequences are
`List Nat` with values below 256 where the `u8` range matters; `Vec<u8>`
lengths are `Nat`; Rust `Result` is `Except`.
-/

/-- Abstract interface of the `ed25519_dalek` primitives used by the wrapper.
`verifying_key k` is the 32-byte public key derived from seed `k`
(`SigningKey::from_bytes(k).verifying_key().to_bytes()`);
`dalek_sign k m` is the 64-byte signature of message `m` under seed `k`
(`SigningKey::from_bytes(k).sign(m).to_bytes()`);
`vk_from_bytes pk` models `VerifyingKey::from_bytes(pk)`: `ok` when the bytes
decode to a valid curve point, `error` carrying the decode-error description
(`e.to_string()`); `dalek_verify pk m sig` is the boolean outcome of
`VerifyingKey::verify(m, sig)` for a decodable key `pk`. -/
structure DalekApi where
  verifying_key : List Nat → List Nat
  dalek_sign : List Nat → List Nat → List Nat
  vk_from_bytes : List Nat → Except String Unit
  dalek_verify : List Nat → List Nat → List Nat → Bool

/-- Documented facts about `ed25519_dalek` (RFC 8032) that the wrapper relies
on, for 32-byte seeds: signatures are 64 bytes, derived public keys are 32
bytes of `u8` values, a derived public key always decodes back to a valid
point, and a signature produced from a seed verifies under the derived key. -/
structure LawfulDalek (D : DalekApi) : Prop where
  sign_len : ∀ k m, k.length = 32 → (D.dalek_sign k m).length = 64
  derive_len : ∀ k, k.length = 32 → (D.verifying_key k).length = 32
  derive_bytes : ∀ k, k.length = 32 → ∀ b ∈ D.verifying_key k, b < 256
  derive_decodes : ∀ k, k.length = 32 → D.vk_from_bytes (D.verifying_key k) = Except.ok ()
  verify_signed : ∀ k m, k.length = 32 →
    D.dalek_verify (D.verifying_key k) m (D.dalek_sign k m) = true

/-- Error enum `Ed25519Error` of lib.rs, each variant carrying its `reason`. -/
inductive Ed25519Error where
  | InvalidPrivateKey (reason : String)
  | InvalidPublicKey (reason : String)
  | InvalidSignature (reason : String)
  | SigningFailed (reason : String)
  | VerificationFailed (reason : String)
deriving DecidableEq

/-- Struct `Ed25519KeyPair` of lib.rs: two byte vectors. -/
structure Ed25519KeyPair where
  public_key : List Nat
  private_key : List Nat
deriving DecidableEq

/-- Raw constructor `Ed25519KeyPair::new`: stores both byte vectors as given,
with no validation or derivation (the `Arc` wrapper carries no semantics). -/
def Ed25519KeyPair.new (public_key private_key : List Nat) : Ed25519KeyPair :=
  { public_key := public_key, private_key := private_key }

/-- Accessor `get_public_key`: clones the stored public-key bytes. -/
def Ed25519KeyPair.get_public_key (self : Ed25519KeyPair) : List Nat :=
  self.public_key

/-- Accessor `get_private_key`: clones the stored private-key bytes. -/
def Ed25519KeyPair.get_private_key (self : Ed25519KeyPair) : List Nat :=
  self.private_key

/-- One lowercase hex digit for a nibble, as produced by `hex::encode`. -/
def nibbleToChar (n : Nat) : Char :=
  if n < 10 then Char.ofNat (48 + n) else Char.ofNat (87 + n)

/-- Character list of `hex::encode`: high nibble then low nibble per byte. -/
def hexEncodeChars : List Nat → List Char
  | [] => []
  | b :: t => nibbleToChar (b / 16) :: nibbleToChar (b % 16) :: hexEncodeChars t

/-- `hex::encode`: lowercase hexadecimal, no prefix, two characters per byte. -/
def hexEncode (bytes : List Nat) : String :=
  String.mk (hexEncodeChars bytes)

/-- Accessor `get_public_key_hex`: `hex::encode(&self.public_key)`. -/
def Ed25519KeyPair.get_public_key_hex (self : Ed25519KeyPair) : String :=
  hexEncode self.public_key

/-- Accessor `get_private_key_hex`: `hex::encode(&self.private_key)`. -/
def Ed25519KeyPair.get_private_key_hex (self : Ed25519KeyPair) : String :=
  hexEncode self.private_key

/-- Value of a lowercase hex digit, inverse of `nibbleToChar`. -/
def charToNibble (c : Char) : Nat :=
  if 97 ≤ c.toNat then c.toNat - 87 else c.toNat - 48

/-- Reference hex decoder: consumes characters two at a time. -/
def hexDecodeChars : List Char → List Nat
  | c1 :: c2 :: t => (16 * charToNibble c1 + charToNibble c2) :: hexDecodeChars t
  | _ => []

/-- Reference hex decoder on strings. -/
def hexDecode (s : String) : List Nat :=
  hexDecodeChars s.toList

/-- Reason string of the `InvalidPrivateKey` length error:
`format!("Private key must be exactly 32 bytes, got {}", len)`. -/
def privKeyLenReason (n : Nat) : String :=
  "Private key must be exactly 32 bytes, got " ++ toString n

/-- Reason string of the `InvalidPublicKey` length error in `verify_signature`. -/
def pubKeyLenReason (n : Nat) : String :=
  "Public key must be exactly 32 bytes, got " ++ toString n

/-- Reason string of the `InvalidSignature` length error in `verify_signature`. -/
def sigLenReason (n : Nat) : String :=
  "Signature must be exactly 64 bytes, got " ++ toString n

/-- `generate_keypair` of lib.rs.  The source fills `secret_key_bytes` with 32
bytes from `OsRng`; the embedding passes that read explicitly as the
`secret_key_bytes` argument.  The rest is the source verbatim: derive the
verifying key from the seed and store both. -/
def generate_keypair (D : DalekApi) (secret_key_bytes : List Nat) : Ed25519KeyPair :=
  { public_key := D.verifying_key secret_key_bytes, private_key := secret_key_bytes }

/-- `sign_message` of lib.rs: reject a private key whose length is not 32 with
`InvalidPrivateKey`, otherwise sign deterministically via the dalek primitive. -/
def sign_message (D : DalekApi) (message private_key : List Nat) :
    Except Ed25519Error (List Nat) :=
  if private_key.length ≠ 32 then
    Except.error (Ed25519Error.InvalidPrivateKey (privKeyLenReason private_key.length))
  else
    Except.ok (D.dalek_sign private_key message)

/-- `verify_signature` of lib.rs: check public-key length, then signature
length, then point decoding, and only then run cryptographic verification,
whose boolean outcome is returned as `ok` (never as an error). -/
def verify_signature (D : DalekApi) (message signature public_key : List Nat) :
    Except Ed25519Error Bool :=
  if public_key.length ≠ 32 then
    Except.error (Ed25519Error.InvalidPublicKey (pubKeyLenReason public_key.length))
  else if signature.length ≠ 64 then
    Except.error (Ed25519Error.InvalidSignature (sigLenReason signature.length))
  else
    match D.vk_from_bytes public_key with
    | Except.error e => Except.error (Ed25519Error.InvalidPublicKey e)
    | Except.ok () => Except.ok (D.dalek_verify public_key message signature)

/-- `keypair_from_private_key` of lib.rs: reject a private key whose length is
not 32 with `InvalidPrivateKey`, otherwise derive the public key from the seed
and store both. -/
def keypair_from_private_key (D : DalekApi) (private_key : List Nat) :
    Except Ed25519Error Ed25519KeyPair :=
  if private_key.length ≠ 32 then
    Except.error (Ed25519Error.InvalidPrivateKey (privKeyLenReason private_key.length))
  else
    Except.ok { public_key := D.verifying_key private_key, private_key := private_key }

/-- Concrete instantiation of the dalek interface used to witness the
hypothesised theorems on explicit inputs.  It satisfies every `LawfulDalek`
law while remaining computable by `decide`. -/
def toyDalek : DalekApi where
  verifying_key k := k.map (fun b => b % 128)
  dalek_sign k m := List.replicate 64 ((k.headD 0 % 128 + m.length) % 256)
  vk_from_bytes pk := if pk.headD 0 < 128 then Except.ok () else Except.error "point decompression failed"
  dalek_verify pk m sig := sig == List.replicate 64 ((pk.headD 0 + m.length) % 256)

theorem toyDalek_lawful : LawfulDalek toyDalek := by
  constructor
  · intro k m _
    simp [toyDalek]
  · intro k hk
    simp [toyDalek, hk]
  · intro k _ b hb
    simp only [toyDalek, List.mem_map] at hb
    obtain ⟨a, -, rfl⟩ := hb
    omega
  · intro k hk
    cases k with
    | nil => simp at hk
    | cons a t => simp [toyDalek]; omega
  · intro k m _
    cases k with
    | nil => simp [toyDalek]
    | cons a t => simp [toyDalek]

/-- Digits that may appear in the output of `hexEncode`. -/
def lowercaseHexDigits : List Char :=
  "0123456789abcdef".toList

theorem nibbleToChar_mem_digits (n : Nat) (h : n < 16) :
    nibbleToChar n ∈ lowercaseHexDigits := by
  interval_cases n <;> decide

theorem charToNibble_nibbleToChar (n : Nat) (h : n < 16) :
    charToNibble (nibbleToChar n) = n := by
  interval_cases n <;> decide

theorem hexEncodeChars_length (bs : List Nat) :
    (hexEncodeChars bs).length = 2 * bs.length := by
  induction bs with
  | nil => rfl
  | cons b t ih => simp only [hexEncodeChars, List.length_cons, ih]; omega

theorem hexEncode_length (bs : List Nat) : (hexEncode bs).length = 2 * bs.length :=
  hexEncodeChars_length bs

theorem hexEncodeChars_mem_digits (bs : List Nat) (h : ∀ b ∈ bs, b < 256) :
    ∀ c ∈ hexEncodeChars bs, c ∈ lowercaseHexDigits := by
  induction bs with
  | nil => simp [hexEncodeChars]
  | cons b t ih =>
    intro c hc
    have hb : b < 256 := h b (by simp)
    simp only [hexEncodeChars, List.mem_cons] at hc
    rcases hc with rfl | rfl | hc
    · exact nibbleToChar_mem_digits _ (by omega)
    · exact nibbleToChar_mem_digits _ (by omega)
    · exact ih (fun x hx => h x (by simp [hx])) c hc

theorem hexDecodeChars_hexEncodeChars (bs : List Nat) (h : ∀ b ∈ bs, b < 256) :
    hexDecodeChars (hexEncodeChars bs) = bs := by
  induction bs with
  | nil => rfl
  | cons b t ih =>
    have hb : b < 256 := h b (by simp)
    have h1 : b / 16 < 16 := by omega
    have h2 : b % 16 < 16 := by omega
    simp only [hexEncodeChars, hexDecodeChars, charToNibble_nibbleToChar _ h1,
      charToNibble_nibbleToChar _ h2, ih (fun x hx => h x (by simp [hx])),
      List.cons.injEq, and_true]
    omega

theorem hexDecode_hexEncode (bs : List Nat) (h : ∀ b ∈ bs, b < 256) :
    hexDecode (hexEncode bs) = bs :=
  hexDecodeChars_hexEncodeChars bs h

theorem isInfix_append_outer {x p : List Char} (q : List Char) (h : x <:+: p) :
    x <:+: p ++ q := by
  obtain ⟨s, t, hst⟩ := h
  exact ⟨s, t ++ q, by rw [← hst]; simp⟩

theorem toString_isInfix_append (a : String) (n : Nat) :
    (toString n).toList <:+: (a ++ toString n).toList :=
  ⟨a.toList, [], by simp [String.toList, String.data_append]⟩

/-- C1: for every message `m` and every 32-byte private key `k`, with `p` the
public key derived by `keypair_from_private_key`, signing `m` with `k` and
verifying the signature against `m` and `p` succeeds and returns `true`
(assuming the documented behaviour of the underlying dalek primitives). -/
theorem sign_verify_round_trip (D : DalekApi) (hD : LawfulDalek D)
    (m k : List Nat) (hk : k.length = 32) :
    ∃ kp, keypair_from_private_key D k = Except.ok kp ∧
      ∃ sig, sign_message D m k = Except.ok sig ∧
        verify_signature D m sig kp.public_key = Except.ok true := by
  refine ⟨⟨D.verifying_key k, k⟩, ?_, D.dalek_sign k m, ?_, ?_⟩
  · simp [keypair_from_private_key, hk]
  · simp [sign_message, hk]
  · have hpk := hD.derive_len k hk
    have hsig := hD.sign_len k m hk
    simp [verify_signature, hpk, hsig, hD.derive_decodes k hk, hD.verify_signed k m hk]

theorem sign_verify_round_trip_witness :
    ∃ kp, keypair_from_private_key toyDalek (List.replicate 32 0) = Except.ok kp ∧
      ∃ sig, sign_message toyDalek [] (List.replicate 32 0) = Except.ok sig ∧
        verify_signature toyDalek [] sig kp.public_key = Except.ok true :=
  sign_verify_round_trip toyDalek toyDalek_lawful [] (List.replicate 32 0) (by simp)

/-- C2: `verify_signature` validates in a fixed order: wrong public-key length
fails first with `InvalidPublicKey` (reason holding the actual length), then
wrong signature length fails with `InvalidSignature` (reason holding the
actual length), then a 32-byte public key that does not decode to a curve
point fails with `InvalidPublicKey` carrying the decode-error description, and
only after all three checks is cryptographic verification run. -/
theorem verify_signature_validation_order (D : DalekApi) (m sig pk : List Nat) :
    (pk.length ≠ 32 →
      verify_signature D m sig pk =
        Except.error (Ed25519Error.InvalidPublicKey (pubKeyLenReason pk.length)) ∧
      (toString pk.length).toList <:+: (pubKeyLenReason pk.length).toList) ∧
    (pk.length = 32 → sig.length ≠ 64 →
      verify_signature D m sig pk =
        Except.error (Ed25519Error.InvalidSignature (sigLenReason sig.length)) ∧
      (toString sig.length).toList <:+: (sigLenReason sig.length).toList) ∧
    (∀ e, pk.length = 32 → sig.length = 64 → D.vk_from_bytes pk = Except.error e →
      verify_signature D m sig pk = Except.error (Ed25519Error.InvalidPublicKey e)) ∧
    (pk.length = 32 → sig.length = 64 → D.vk_from_bytes pk = Except.ok () →
      verify_signature D m sig pk = Except.ok (D.dalek_verify pk m sig)) := by
  refine ⟨fun h => ⟨?_, toString_isInfix_append _ _⟩,
    fun h1 h2 => ⟨?_, toString_isInfix_append _ _⟩,
    fun e h1 h2 h3 => ?_, fun h1 h2 h3 => ?_⟩
  · simp [verify_signature, h]
  · simp [verify_signature, h1, h2]
  · simp [verify_signature, h1, h2, h3]
  · simp [verify_signature, h1, h2, h3]

theorem verify_signature_validation_order_witness :
    verify_signature toyDalek [] [] [0] =
      Except.error (Ed25519Error.InvalidPublicKey (pubKeyLenReason 1)) ∧
    verify_signature toyDalek [] (List.replicate 64 0) (List.replicate 32 200) =
      Except.error (Ed25519Error.InvalidPublicKey "point decompression failed") :=
  ⟨((verify_signature_validation_order toyDalek [] [] [0]).1 (by decide)).1,
   (verify_signature_validation_order toyDalek [] (List.replicate 64 0)
      (List.replicate 32 200)).2.2.1 "point decompression failed"
      (by simp) (by simp) (by rfl)⟩

/-- C3: on well-formed inputs (32-byte decodable public key, 64-byte
signature, any message) `verify_signature` never errors: it returns `ok` of
exactly the boolean outcome of the underlying cryptographic verification,
`ok true` when the primitive accepts and `ok false` when it rejects. -/
theorem verify_signature_wellformed_total (D : DalekApi) (m sig pk : List Nat)
    (hpk : pk.length = 32) (hsig : sig.length = 64)
    (hdec : D.vk_from_bytes pk = Except.ok ()) :
    verify_signature D m sig pk = Except.ok (D.dalek_verify pk m sig) ∧
    (D.dalek_verify pk m sig = true → verify_signature D m sig pk = Except.ok true) ∧
    (D.dalek_verify pk m sig = false → verify_signature D m sig pk = Except.ok false) := by
  have h : verify_signature D m sig pk = Except.ok (D.dalek_verify pk m sig) := by
    simp [verify_signature, hpk, hsig, hdec]
  exact ⟨h, fun hv => by rw [h, hv], fun hv => by rw [h, hv]⟩

theorem verify_signature_wellformed_total_witness :
    verify_signature toyDalek [] (List.replicate 64 0) (List.replicate 32 0) =
      Except.ok (toyDalek.dalek_verify (List.replicate 32 0) [] (List.replicate 64 0)) :=
  (verify_signature_wellformed_total toyDalek [] (List.replicate 64 0)
    (List.replicate 32 0) (by simp) (by simp) (by rfl)).1

/-- C4: `sign_message` fails with `InvalidPrivateKey` (reason holding the
actual length) exactly when the private key is not 32 bytes; on any message
and any 32-byte private key it succeeds with a 64-byte signature. -/
theorem sign_message_length_spec (D : DalekApi) (hD : LawfulDalek D)
    (m k : List Nat) :
    (k.length ≠ 32 →
      sign_message D m k =
        Except.error (Ed25519Error.InvalidPrivateKey (privKeyLenReason k.length)) ∧
      (toString k.length).toList <:+: (privKeyLenReason k.length).toList) ∧
    (k.length = 32 → ∃ sig, sign_message D m k = Except.ok sig ∧ sig.length = 64) := by
  constructor
  · intro h
    exact ⟨by simp [sign_message, h], toString_isInfix_append _ _⟩
  · intro h
    exact ⟨D.dalek_sign k m, by simp [sign_message, h], hD.sign_len k m h⟩

theorem sign_message_length_spec_witness :
    (∃ sig, sign_message toyDalek [] (List.replicate 32 0) = Except.ok sig ∧
      sig.length = 64) ∧
    sign_message toyDalek [] [0, 1] =
      Except.error (Ed25519Error.InvalidPrivateKey (privKeyLenReason 2)) :=
  ⟨(sign_message_length_spec toyDalek toyDalek_lawful [] (List.replicate 32 0)).2 (by simp),
   ((sign_message_length_spec toyDalek toyDalek_lawful [] [0, 1]).1 (by decide)).1⟩

/-- C5: `keypair_from_private_key` fails with `InvalidPrivateKey` (reason
holding the actual length and the expected length 32) exactly when the input
is not 32 bytes; on a 32-byte input it returns a KeyPair storing the supplied
private key unchanged together with the derived public key. -/
theorem keypair_from_private_key_spec (D : DalekApi) (k : List Nat) :
    (k.length ≠ 32 →
      keypair_from_private_key D k =
        Except.error (Ed25519Error.InvalidPrivateKey (privKeyLenReason k.length)) ∧
      (toString k.length).toList <:+: (privKeyLenReason k.length).toList ∧
      "32".toList <:+: (privKeyLenReason k.length).toList) ∧
    (k.length = 32 →
      keypair_from_private_key D k =
        Except.ok { public_key := D.verifying_key k, private_key := k }) := by
  constructor
  · intro h
    refine ⟨by simp [keypair_from_private_key, h], toString_isInfix_append _ _, ?_⟩
    exact isInfix_append_outer _ (by decide)
  · intro h
    simp [keypair_from_private_key, h]

theorem keypair_from_private_key_spec_witness :
    keypair_from_private_key toyDalek [] =
      Except.error (Ed25519Error.InvalidPrivateKey (privKeyLenReason 0)) ∧
    keypair_from_private_key toyDalek (List.replicate 32 7) =
      Except.ok { public_key := toyDalek.verifying_key (List.replicate 32 7),
                  private_key := List.replicate 32 7 } :=
  ⟨((keypair_from_private_key_spec toyDalek []).1 (by decide)).1,
   (keypair_from_private_key_spec toyDalek (List.replicate 32 7)).2 (by simp)⟩

/-- C6: `sign_message` is deterministic: its body consumes no randomness (the
embedding of the source body is a pure function of `(message, private_key)`,
and the dalek primitive it calls is the deterministic RFC 8032 signer), so two
calls on identical inputs return byte-identical results. -/
theorem sign_message_deterministic (D : DalekApi) (m k : List Nat)
    (out1 out2 : Except Ed25519Error (List Nat))
    (h1 : sign_message D m k = out1) (h2 : sign_message D m k = out2) :
    out1 = out2 :=
  h1.symm.trans h2

theorem sign_message_deterministic_witness :
    sign_message toyDalek [1, 2, 3] (List.replicate 32 0) =
      Except.ok (List.replicate 64 3) :=
  sign_message_deterministic toyDalek [1, 2, 3] (List.replicate 32 0)
    (sign_message toyDalek [1, 2, 3] (List.replicate 32 0))
    (Except.ok (List.replicate 64 3)) rfl rfl

/-- C7: for every 32-byte private key `k`, `keypair_from_private_key k`
returns exactly the KeyPair that `generate_keypair`'s derivation step produces
from the seed `k`; in particular the public keys agree, and any two successful
calls with the same `k` yield identical public keys. -/
theorem keypair_from_private_key_matches_generate (D : DalekApi) (k : List Nat)
    (hk : k.length = 32) :
    keypair_from_private_key D k = Except.ok (generate_keypair D k) ∧
    ∀ kp1 kp2, keypair_from_private_key D k = Except.ok kp1 →
      keypair_from_private_key D k = Except.ok kp2 →
      kp1.public_key = kp2.public_key := by
  refine ⟨by simp [keypair_from_private_key, generate_keypair, hk], ?_⟩
  intro kp1 kp2 h1 h2
  rw [h1] at h2
  exact congrArg Ed25519KeyPair.public_key (Except.ok.inj h2)

theorem keypair_from_private_key_matches_generate_witness :
    keypair_from_private_key toyDalek (List.replicate 32 5) =
      Except.ok (generate_keypair toyDalek (List.replicate 32 5)) :=
  (keypair_from_private_key_matches_generate toyDalek (List.replicate 32 5) (by simp)).1

/-- C8: for every KeyPair whose stored keys are byte sequences (values below
256, as guaranteed by `Vec<u8>`), both hex accessors return a string of
exactly two characters per byte, drawn from the lowercase hex digits with no
prefix, and hex-decoding the string reproduces the corresponding key bytes. -/
theorem hex_accessors_spec (kp : Ed25519KeyPair)
    (hpub : ∀ b ∈ kp.public_key, b < 256) (hpriv : ∀ b ∈ kp.private_key, b < 256) :
    kp.get_public_key_hex.length = 2 * kp.get_public_key.length ∧
    (∀ c ∈ kp.get_public_key_hex.toList, c ∈ lowercaseHexDigits) ∧
    hexDecode kp.get_public_key_hex = kp.get_public_key ∧
    kp.get_private_key_hex.length = 2 * kp.get_private_key.length ∧
    (∀ c ∈ kp.get_private_key_hex.toList, c ∈ lowercaseHexDigits) ∧
    hexDecode kp.get_private_key_hex = kp.get_private_key :=
  ⟨hexEncode_length _, hexEncodeChars_mem_digits _ hpub, hexDecode_hexEncode _ hpub,
   hexEncode_length _, hexEncodeChars_mem_digits _ hpriv, hexDecode_hexEncode _ hpriv⟩

theorem hex_accessors_spec_witness :
    hexDecode ((Ed25519KeyPair.new [0, 171, 255] [16]).get_public_key_hex) =
      (Ed25519KeyPair.new [0, 171, 255] [16]).get_public_key :=
  (hex_accessors_spec (Ed25519KeyPair.new [0, 171, 255] [16])
    (by decide) (by decide)).2.2.1

/-- C9 counterexample: the raw constructor stores arbitrary bytes, so a
KeyPair built from empty byte vectors has a public key of length 0, refuting
the claim that every KeyPair, however constructed, yields 32 bytes from
`get_public_key`. -/
theorem keypair_accessor_sizes_counterexample :
    ¬ ((Ed25519KeyPair.new [] []).get_public_key.length = 32 ∧
       (Ed25519KeyPair.new [] []).get_public_key_hex.length = 64) := by
  decide

/-- C9 amended: for every KeyPair produced by `generate_keypair` (from a
32-byte seed of `u8` values) or by a successful `keypair_from_private_key`
call on `u8` input, `get_public_key` and `get_private_key` return exactly 32
bytes and the hex accessors return 64-character lowercase hex strings; a
KeyPair built by the raw two-argument constructor carries whatever bytes were
supplied (see the counterexample). -/
theorem keypair_accessor_sizes (D : DalekApi) (hD : LawfulDalek D)
    (kp : Ed25519KeyPair)
    (hkp : (∃ seed, seed.length = 32 ∧ (∀ b ∈ seed, b < 256) ∧
              kp = generate_keypair D seed) ∨
           (∃ k, (∀ b ∈ k, b < 256) ∧
              keypair_from_private_key D k = Except.ok kp)) :
    kp.get_public_key.length = 32 ∧ kp.get_private_key.length = 32 ∧
    kp.get_public_key_hex.length = 64 ∧ kp.get_private_key_hex.length = 64 ∧
    (∀ c ∈ kp.get_public_key_hex.toList, c ∈ lowercaseHexDigits) ∧
    (∀ c ∈ kp.get_private_key_hex.toList, c ∈ lowercaseHexDigits) := by
  have key : ∃ seed, seed.length = 32 ∧ (∀ b ∈ seed, b < 256) ∧
      kp.public_key = D.verifying_key seed ∧ kp.private_key = seed := by
    rcases hkp with ⟨seed, h1, h2, rfl⟩ | ⟨k, hb, hok⟩
    · exact ⟨seed, h1, h2, rfl, rfl⟩
    · by_cases hlen : k.length = 32
      · have h : Except.ok ({ public_key := D.verifying_key k, private_key := k } :
            Ed25519KeyPair) = Except.ok (ε := Ed25519Error) kp := by
          rw [← hok]; simp [keypair_from_private_key, hlen]
        obtain rfl := Except.ok.inj h
        exact ⟨k, hlen, hb, rfl, rfl⟩
      · simp [keypair_from_private_key, hlen] at hok
  obtain ⟨seed, hs32, hsb, hpub, hpriv⟩ := key
  have hpl : kp.public_key.length = 32 := by rw [hpub]; exact hD.derive_len seed hs32
  have hsl : kp.private_key.length = 32 := by rw [hpriv]; exact hs32
  refine ⟨hpl, hsl, ?_, ?_, ?_, ?_⟩
  · rw [Ed25519KeyPair.get_public_key_hex, hexEncode_length, hpl]
  · rw [Ed25519KeyPair.get_private_key_hex, hexEncode_length, hsl]
  · exact hexEncodeChars_mem_digits _ (hpub ▸ hD.derive_bytes seed hs32)
  · exact hexEncodeChars_mem_digits _ (hpriv ▸ hsb)

theorem keypair_accessor_sizes_witness :
    (generate_keypair toyDalek (List.replicate 32 9)).get_public_key.length = 32 ∧
    (generate_keypair toyDalek (List.replicate 32 9)).get_public_key_hex.length = 64 :=
  ⟨(keypair_accessor_sizes toyDalek toyDalek_lawful
      (generate_keypair toyDalek (List.replicate 32 9))
      (Or.inl ⟨List.replicate 32 9, by simp, by decide, rfl⟩)).1,
   (keypair_accessor_sizes toyDalek toyDalek_lawful
      (generate_keypair toyDalek (List.replicate 32 9))
      (Or.inl ⟨List.replicate 32 9, by simp, by decide, rfl⟩)).2.2.1⟩

/-- C10: the raw constructor `Ed25519KeyPair::new` accepts byte sequences of
any lengths and stores them unmodified, with no validation or derivation: the
accessors return exactly the supplied bytes. -/
theorem raw_constructor_stores_bytes_unmodified (p s : List Nat) :
    (Ed25519KeyPair.new p s).get_public_key = p ∧
    (Ed25519KeyPair.new p s).get_private_key = s :=
  ⟨rfl, rfl⟩
